import Mathlib

/-!
Shallow embedding of the AppScale Hermes telemetry aggregator and the
retry/backoff utilities (common/appscale/common/retrying.py,
common/appscale/common/async_retrying.py,
Hermes/appscale/hermes/resources/process.py,
Hermes/appscale/hermes/resources/resource_handlers.py).

Numbers (times, counters, backoff delays) are modelled as exact rationals.
Python runtime errors (TypeError, ZeroDivisionError, KeyError, ValueError,
StopIteration) are modelled explicitly with `Except` / `Option`.
-/

namespace AppScale

/-- Python runtime error kinds that the embedded code can raise. -/
inductive PyErr where
  | typeError
  | zeroDivisionError
  | keyError
  | valueError
  deriving DecidableEq, Repr

/-- Python `int()` truncation of a rational number (truncates toward zero). -/
def pyTrunc (q : ℚ) : ℤ := if q < 0 then ⌈q⌉ else ⌊q⌋

/-- Python dict values coexist with keys of several types; Hermes uses both
int PIDs and long_pid strings as keys.  Python `==` between an int and a str
is `False`, which `pyKeyEq` mirrors on the constructor mismatch. -/
inductive PyKey where
  | int (n : ℤ)
  | str (s : String)
  deriving DecidableEq, Repr

/-- Python equality between dict keys: ints compare with ints, strings with
strings, and an int never equals a string. -/
def pyKeyEq : PyKey → PyKey → Bool
  | .int a, .int b => a = b
  | .str a, .str b => a = b
  | _, _ => false

/-- Python dict assignment `m[k] = v`: replaces the value at an existing key
(keeping its insertion position) or appends a new entry. -/
def dictInsert [DecidableEq κ] (m : List (κ × α)) (k : κ) (v : α) : List (κ × α) :=
  if m.any (fun e => e.1 = k) then
    m.map (fun e => if e.1 = k then (k, v) else e)
  else
    m ++ [(k, v)]

/-- Python dict lookup `m.get(k)`. -/
def dictGet [DecidableEq κ] (m : List (κ × α)) (k : κ) : Option α :=
  (m.find? (fun e => decide (e.1 = k))).map (·.2)

/-! ### BackoffSequence (common/appscale/common/retrying.py) -/

/-- Defaults from retrying.py lines 7-13. -/
def DEFAULT_BACKOFF_BASE : ℚ := 2
def DEFAULT_BACKOFF_MULTIPLIER : ℚ := 1/5
def DEFAULT_BACKOFF_THRESHOLD : ℚ := 300
def DEFAULT_MAX_RETRIES : ℕ := 10
def DEFAULT_RETRYING_TIMEOUT : ℚ := 60
def DEFAULT_RANDOMIZE : Bool := false

/-- State of a `BackoffSequence` instance (retrying.py lines 69-83).
`backoff` is `_backoff` (initialised with the multiplier), `attemptNum` is
`_attempt_num`, `promisedNext` is `_promised_next`, `startTime` is
`_start_time` (set by `__iter__`).  `maxRetries = 0` and `timeout = 0` model
the falsy "no limit" settings. -/
structure BackoffSeq where
  base : ℚ
  backoff : ℚ
  threshold : ℚ
  maxRetries : ℕ
  timeout : ℚ
  randomize : Bool
  attemptNum : ℕ
  promisedNext : Bool
  startTime : ℚ
  deriving DecidableEq, Repr

/-- `BackoffSequence.__init__` with explicit arguments. -/
def BackoffSeq.mk0 (base multiplier threshold : ℚ) (maxRetries : ℕ) (timeout : ℚ)
    (randomize : Bool) : BackoffSeq :=
  { base := base, backoff := multiplier, threshold := threshold,
    maxRetries := maxRetries, timeout := timeout, randomize := randomize,
    attemptNum := 0, promisedNext := false, startTime := 0 }

/-- `BackoffSequence.__iter__` (retrying.py lines 84-95): raises WrongUsage
(modelled as `none`) when the sequence was already used, otherwise records the
start time. -/
def BackoffSeq.iterStart (s : BackoffSeq) (now : ℚ) : Option BackoffSeq :=
  if s.attemptNum > 0 then none else some { s with startTime := now }

/-- `BackoffSequence._has_next` (retrying.py lines 97-114).  `now` is the
value of `time.time()` at the moment of the call. -/
def BackoffSeq.hasNextPriv (s : BackoffSeq) (afterBackoff : Bool) (now : ℚ) : Bool :=
  if s.maxRetries ≠ 0 ∧ s.attemptNum > s.maxRetries then false
  else if s.timeout ≠ 0 then
    let timestamp := if afterBackoff then now + s.backoff else now
    if timestamp - s.startTime > s.timeout then false else true
  else true

/-- `BackoffSequence.has_next` (retrying.py lines 116-127): checks
`_has_next(after_backoff=True)` and records the promise. -/
def BackoffSeq.hasNext (s : BackoffSeq) (now : ℚ) : Bool × BackoffSeq :=
  let hasMore := s.hasNextPriv true now
  (hasMore, if hasMore then { s with promisedNext := true } else s)

/-- `BackoffSequence.next` (retrying.py lines 129-148).  `rand` is the value
`random.random()` would return (used only when `randomize`).  `none` models
`StopIteration`. -/
def BackoffSeq.next (s : BackoffSeq) (now : ℚ) (rand : ℚ) : Option (ℚ × BackoffSeq) :=
  if ¬ s.hasNextPriv false now ∧ ¬ s.promisedNext then none
  else
    let b := if s.attemptNum ≠ 0 then s.backoff * s.base else s.backoff
    let b := min b s.threshold
    let b := if s.randomize then b * (rand * (3/10) + 17/20) else b
    some (b, { s with backoff := b, promisedNext := false, attemptNum := s.attemptNum + 1 })

/-- Iterating a `BackoffSequence` to exhaustion with no real time elapsing
(every call observes `time.time() = now`); `fuel` bounds the unrolling. -/
def BackoffSeq.drain (now : ℚ) : ℕ → BackoffSeq → List ℚ
  | 0, _ => []
  | fuel + 1, s =>
    match s.next now 0 with
    | none => []
    | some (b, s') => b :: BackoffSeq.drain now fuel s'

/-! ### _Retry.__call__ (common/appscale/common/retrying.py lines 185-237) -/

/-- Configuration fields of a `_Retry` instance (retrying.py lines 159-183).
`retryOnException` is kept abstract (a predicate or a list of exception
classes in the source). -/
structure RetryCfg (E : Type) where
  backoffBase : ℚ
  backoffMultiplier : ℚ
  backoffThreshold : ℚ
  maxRetries : ℕ
  retryingTimeout : ℚ
  randomizeBackoff : Bool
  retryOnException : E
  deriving DecidableEq, Repr

/-- `not_missed(value_1, value_2)` (retrying.py lines 26-31): the first
argument when it is not MISSED, otherwise the second.  In `_Retry.__call__`
the second argument is always a field of `self`, never MISSED, so
`BothMissedException` cannot occur. -/
def notMissed (v : Option α) (d : α) : α := v.getD d

/-- Result of `_Retry.__call__`: either a callable wrapped with the given
configuration, or a new configured retryer (decorator-with-arguments use). -/
inductive RetryCallResult (E : Type) where
  | wrapped (cfg : RetryCfg E)
  | newRetry (cfg : RetryCfg E)
  deriving DecidableEq, Repr

/-- `_Retry.__call__` (retrying.py lines 185-237).  `funcGiven` tells whether
`func` was passed; a `none` argument models MISSED.  Note the source's
`params` tuple (lines 210-211) omits `randomize_backoff`. -/
def retryCall (self : RetryCfg E) (funcGiven : Bool)
    (backoff_base backoff_multiplier backoff_threshold : Option ℚ)
    (max_retries : Option ℕ) (retrying_timeout : Option ℚ)
    (randomize_backoff : Option Bool) (retry_on_exception : Option E) :
    RetryCallResult E :=
  let paramsGiven := backoff_base.isSome ∨ backoff_multiplier.isSome ∨
    backoff_threshold.isSome ∨ max_retries.isSome ∨ retrying_timeout.isSome ∨
    retry_on_exception.isSome
  if paramsGiven then
    let customRetry : RetryCfg E :=
      { backoffBase := notMissed backoff_base self.backoffBase,
        backoffMultiplier := notMissed backoff_multiplier self.backoffMultiplier,
        backoffThreshold := notMissed backoff_threshold self.backoffThreshold,
        maxRetries := notMissed max_retries self.maxRetries,
        retryingTimeout := notMissed retrying_timeout self.retryingTimeout,
        randomizeBackoff := notMissed randomize_backoff self.randomizeBackoff,
        retryOnException := notMissed retry_on_exception self.retryOnException }
    if funcGiven then .wrapped customRetry else .newRetry customRetry
  else .wrapped self

/-- The configuration carried by either result of `_Retry.__call__`. -/
def RetryCallResult.cfg : RetryCallResult E → RetryCfg E
  | .wrapped c => c
  | .newRetry c => c

/-! ### persistent_execute retry iteration
(common/appscale/common/async_retrying.py lines 175-217) -/

/-- Outcome of one attempt of the wrapped function inside
`persistent_execute`: a result, or an exception (with whether
`check_exception` accepts it). -/
inductive Attempt (R : Type) where
  | ok (r : R)
  | err (retryable : Bool)
  deriving DecidableEq, Repr

/-- What the sleeping call observes on wake (async_retrying.py lines
209-211): whether `condition.wait` returned True (notified before the
timeout) and the value of `node_lock.waiters` at that moment. -/
structure Wake where
  interrupted : Bool
  waitersOnWake : ℕ
  deriving DecidableEq, Repr

/-- Terminal outcome of `persistent_execute`'s retry loop: a successful
result, an exception propagating out (`raise`), or silent abandonment —
the plain `return` on lines 212-215, a normal return with no result. -/
inductive PersistentOutcome (R : Type) where
  | success (r : R)
  | raised
  | superseded
  deriving DecidableEq, Repr

/-- Result of one iteration of the `for backoff in backoff_sequence` loop in
`persistent_execute`. -/
inductive PersistentStep (R : Type) where
  | done (o : PersistentOutcome R)
  | more (seq : BackoffSeq)
  deriving DecidableEq, Repr

/-- One iteration of `persistent_execute`'s retry loop (async_retrying.py
lines 175-217): draw the next backoff, run the attempt; on success break; on
exception run the has_next/check_exception checks and either raise, or sleep
on the condition and — if awakened early or if `waiters > 0` on wake —
abandon silently (`return`, i.e. `superseded`). -/
def persistentStep (now rand : ℚ) (seq : BackoffSeq) (att : Attempt R) (wake : Wake) :
    PersistentStep R :=
  match seq.next now rand with
  | none => .done .raised
  | some (_, seq') =>
    match att with
    | .ok r => .done (.success r)
    | .err retryable =>
      let (hasMore, seq'') := seq'.hasNext now
      if ¬ hasMore then .done .raised
      else if ¬ retryable then .done .raised
      else if wake.interrupted ∨ wake.waitersOnWake ≠ 0 then .done .superseded
      else .more seq''

/-- The whole retry loop of `persistent_execute`, driven by a script of
attempt outcomes and wake observations; `none` means the script ran out
before the loop finished. -/
def persistentLoop (now rand : ℚ) :
    List (Attempt R × Wake) → BackoffSeq → Option (PersistentOutcome R)
  | [], _ => none
  | (a, w) :: rest, seq =>
    match persistentStep now rand seq a w with
    | .done o => some o
    | .more seq' => persistentLoop now rand rest seq'

/-! ### Process sampler (Hermes/appscale/hermes/resources/process.py) -/

/-- The `io_counters` block of a process: the four cumulative disk-IO
counters which psutil reports together or not at all (process.py lines
219-223 set the four fields together when `io_counters` is truthy). -/
structure IOCounters where
  read_count : ℚ
  write_count : ℚ
  read_bytes : ℚ
  write_bytes : ℚ
  deriving DecidableEq, Repr

/-- The psutil-provided attributes of one enumerated process that the
sampler's control flow reads (process.py lines 82-86, 195-227).  The purely
pass-through attributes (status, username, cwd, exe, cmdline, cpu_percent,
memory_info, num_threads, num_fds) are copied verbatim into the sample and
are not referenced by any claim, so they are left out of the record. -/
structure ProcInfo where
  pid : ℕ
  ppid : ℕ
  name : String
  create_time : ℚ
  cpu_user : ℚ
  cpu_system : ℚ
  io_counters : Option IOCounters
  ctx_switches_voluntary : ℚ
  ctx_switches_involuntary : ℚ
  deriving DecidableEq, Repr

/-- The `Process` sample container (process.py lines 25-79), restricted to
the fields the sampler's control flow writes or reads non-trivially.
`Option` fields default to `None` in the source. -/
structure ProcessSample where
  utc_timestamp : Option ℚ
  host : Option String
  long_pid : Option String
  pid : ℕ
  ppid : ℕ
  create_time : ℚ
  name : String
  own_tags : List String
  all_tags : List String
  cpu_user : ℚ
  cpu_system : ℚ
  cpu_user_1h_diff : Option ℚ
  cpu_system_1h_diff : Option ℚ
  io_counters : Option IOCounters
  disk_io_read_count_1h_diff : Option ℚ
  disk_io_write_count_1h_diff : Option ℚ
  disk_io_read_bytes_1h_diff : Option ℚ
  disk_io_write_bytes_1h_diff : Option ℚ
  ctx_switches_voluntary : ℚ
  ctx_switches_involuntary : ℚ
  ctx_switches_voluntary_1h_diff : Option ℚ
  ctx_switches_involuntary_1h_diff : Option ℚ
  deriving DecidableEq, Repr

/-- `init_process_info` (process.py lines 183-228): fill the sample from the
psutil attributes; `own_tags` comes from the catalog when the int PID is a
known key, else `[process.name]`; `all_tags` starts as a copy of `own_tags`. -/
def initProcessInfo (p : ProcInfo) (knownProcesses : List (ℕ × List String)) :
    ProcessSample :=
  let ownTags := (dictGet knownProcesses p.pid).getD [p.name]
  { utc_timestamp := none, host := none, long_pid := none,
    pid := p.pid, ppid := p.ppid, create_time := p.create_time, name := p.name,
    own_tags := ownTags, all_tags := ownTags,
    cpu_user := p.cpu_user, cpu_system := p.cpu_system,
    cpu_user_1h_diff := none, cpu_system_1h_diff := none,
    io_counters := p.io_counters,
    disk_io_read_count_1h_diff := none, disk_io_write_count_1h_diff := none,
    disk_io_read_bytes_1h_diff := none, disk_io_write_bytes_1h_diff := none,
    ctx_switches_voluntary := p.ctx_switches_voluntary,
    ctx_switches_involuntary := p.ctx_switches_involuntary,
    ctx_switches_voluntary_1h_diff := none,
    ctx_switches_involuntary_1h_diff := none }

/-- The per-scrape index key `'{}_{}_{}'.format(host, process.pid,
int(process.create_time() * 1000))` (process.py lines 113-114). -/
def longPidStr (host : String) (pid : ℕ) (create_time : ℚ) : String :=
  host ++ "_" ++ toString pid ++ "_" ++ toString (pyTrunc (create_time * 1000))

/-- `pid_to_process.get(ppid)` inside `list_ancestors_tags` (process.py line
127): the dict's keys are the long_pid strings built on line 113, while the
argument is the int `ppid`; Python `==` between an int and a str key is
False, mirrored by `pyKeyEq` on the constructor mismatch. -/
def pidToProcessGet (dict : List (String × ProcessSample)) (k : PyKey) :
    Option ProcessSample :=
  (dict.find? (fun e => pyKeyEq (.str e.1) k)).map (·.2)

/-- `list_ancestors_tags` (process.py lines 119-132), with explicit fuel for
the recursion (the Python recursion is bounded by the parent chain; since the
int lookup in the string-keyed dict never succeeds, the fuel value is
immaterial). -/
def listAncestorsTags (dict : List (String × ProcessSample)) :
    ℕ → ℕ → List String
  | 0, _ => []
  | fuel + 1, ppid =>
    match pidToProcessGet dict (.int ppid) with
    | none => []
    | some parent =>
      if parent.ppid = 0 ∨ parent.ppid = 1 ∨ parent.ppid = 2 then
        parent.own_tags
      else
        parent.own_tags ++ listAncestorsTags dict fuel parent.ppid

/-- The `if prev:` block of `list_processes` (process.py lines 139-168):
compute `diff_coef = 60 * 60 / (start_time - prev.utc_timestamp)` and set the
`*_1h_diff` fields.  A zero elapsed time raises ZeroDivisionError; a current
sample with IO counters whose previous sample has none raises TypeError
(`int - None`); subtracting from a prev whose `utc_timestamp` is None would
likewise raise TypeError. -/
def applyDiffs (start_time : ℚ) (p prev : ProcessSample) :
    Except PyErr ProcessSample :=
  match prev.utc_timestamp with
  | none => .error PyErr.typeError
  | some t =>
    if start_time - t = 0 then .error PyErr.zeroDivisionError
    else
      let diffCoef := 60 * 60 / (start_time - t)
      let p1 := { p with
        cpu_user_1h_diff := some ((p.cpu_user - prev.cpu_user) * diffCoef),
        cpu_system_1h_diff := some ((p.cpu_system - prev.cpu_system) * diffCoef) }
      let withIo : Except PyErr ProcessSample :=
        match p1.io_counters with
        | some cur =>
          match prev.io_counters with
          | none => .error PyErr.typeError
          | some pv => .ok { p1 with
              disk_io_read_count_1h_diff :=
                some ((cur.read_count - pv.read_count) * diffCoef),
              disk_io_write_count_1h_diff :=
                some ((cur.write_count - pv.write_count) * diffCoef),
              disk_io_read_bytes_1h_diff :=
                some ((cur.read_bytes - pv.read_bytes) * diffCoef),
              disk_io_write_bytes_1h_diff :=
                some ((cur.write_bytes - pv.write_bytes) * diffCoef) }
        | none => .ok p1
      match withIo with
      | .error e => .error e
      | .ok p2 => .ok { p2 with
          ctx_switches_voluntary_1h_diff :=
            some ((p2.ctx_switches_voluntary - prev.ctx_switches_voluntary) * diffCoef),
          ctx_switches_involuntary_1h_diff :=
            some ((p2.ctx_switches_involuntary - prev.ctx_switches_involuntary) * diffCoef) }

/-- The body of the `for long_pid, p in pid_to_process.items()` loop
(process.py lines 135-172): assign `long_pid`, apply the `*_1h_diff` block
when the previous snapshot holds the same long_pid, stamp `utc_timestamp` and
`host`, and extend `all_tags` with the ancestors' tags.  `dict` is passed in
its pre-loop state: the loop only mutates fields (`long_pid`, diffs,
`utc_timestamp`, `host`, `all_tags`) that `list_ancestors_tags` never reads,
so this is observationally the dict the source traverses. -/
def finalizeSample (start_time : ℚ) (host : String)
    (dict : List (String × ProcessSample))
    (previousState : List (String × ProcessSample))
    (long_pid : String) (p : ProcessSample) : Except PyErr ProcessSample :=
  let p0 := { p with long_pid := some long_pid }
  let afterDiffs : Except PyErr ProcessSample :=
    match dictGet previousState long_pid with
    | none => .ok p0
    | some prev => applyDiffs start_time p0 prev
  match afterDiffs with
  | .error e => .error e
  | .ok p1 =>
    let p2 := { p1 with utc_timestamp := some start_time, host := some host }
    .ok { p2 with
      all_tags := p2.all_tags ++ listAncestorsTags dict (dict.length + 1) p2.ppid }

/-- The `for long_pid, p in pid_to_process.items()` loop (process.py lines
135-172) over the whole index, propagating the first raised error. -/
def finalizeAll (start_time : ℚ) (host : String)
    (dict previousState : List (String × ProcessSample)) :
    List (String × ProcessSample) →
    Except PyErr (List (String × ProcessSample))
  | [] => .ok []
  | e :: rest =>
    match finalizeSample start_time host dict previousState e.1 e.2 with
    | .error err => .error err
    | .ok q =>
      match finalizeAll start_time host dict previousState rest with
      | .error err => .error err
      | .ok others => .ok ((e.1, q) :: others)

/-- `list_processes` (process.py lines 101-180) as a function of its
environment: the scrape start time, the host's private IP, the resolved
service catalog, the enumerated processes, and the global
`Process.PREVIOUS_STATE`.  Returns the sample list together with the new
value of `Process.PREVIOUS_STATE` (the finalized index). -/
def listProcesses (start_time : ℚ) (host : String)
    (knownProcesses : List (ℕ × List String)) (procs : List ProcInfo)
    (previousState : List (String × ProcessSample)) :
    Except PyErr (List ProcessSample × List (String × ProcessSample)) :=
  let pidToProcess : List (String × ProcessSample) :=
    procs.foldl (fun m proc =>
      dictInsert m (longPidStr host proc.pid proc.create_time)
        (initProcessInfo proc knownProcesses)) []
  match finalizeAll start_time host pidToProcess previousState pidToProcess with
  | .error e => .error e
  | .ok finalized => .ok (finalized.map (·.2), finalized)

/-! ### Unit-based service discovery
(Hermes/appscale/hermes/resources/process.py lines 16-18, 245-279) -/

/-- `str.strip(chars)`: drop the given characters from both ends. -/
def pyStripStr (set : List Char) (l : List Char) : List Char :=
  ((l.dropWhile (· ∈ set)).reverse.dropWhile (· ∈ set)).reverse

/-- `str.isdigit()` for the ASCII outputs of `systemctl show`: non-empty and
all decimal digits. -/
def isDigits (l : List Char) : Bool :=
  ¬ l.isEmpty ∧ l.all (fun c => '0' ≤ c ∧ c ≤ '9')

/-- `int()` of a digit string. -/
def natOfDigits (l : List Char) : ℕ :=
  l.foldl (fun acc c => 10 * acc + (c.toNat - 48)) 0

/-- `str.split(sep)` for a single-character separator: one part per gap,
empty parts included. -/
def splitChar (sep : Char) : List Char → List (List Char)
  | [] => [[]]
  | c :: rest =>
    if c = sep then [] :: splitChar sep rest
    else
      match splitChar sep rest with
      | [] => [[c]]
      | h :: t => (c :: h) :: t

/-- The lengths `n, n-1, …, 1`: the order in which a greedy `+` quantifier
tries candidate match lengths (longest first, backtracking one at a time). -/
def countdown : ℕ → List ℕ
  | 0 => []
  | n + 1 => (n + 1) :: countdown n

/-- The trailing `.service` of SERVICE_NAME_PATTERN: one arbitrary character
(`.` is not escaped in the source pattern) followed by the literal
`service`; `re.match` does not require the rest of the string to be
consumed. -/
def dotService (t : List Char) : Bool :=
  match t with
  | [] => false
  | _ :: rest => "service".data.isPrefixOf rest

/-- The `(@(?P<after_at>[^.]+))?.service` tail of SERVICE_NAME_PATTERN
matched against `t`: the optional group is tried first (greedy `[^.]+`,
longest first); when no group alternative lets the rest match, the group is
skipped and `.service` must match `t` itself.  Returns the `after_at`
capture. -/
def matchTail (t : List Char) : Option (Option (List Char)) :=
  match t with
  | '@' :: u =>
    match (countdown ((u.takeWhile (· ≠ '.')).length)).findSome? (fun i =>
        if dotService (u.drop i) then some (u.take i) else none) with
    | some a => some (some a)
    | none => if dotService t then some none else none
  | _ => if dotService t then some none else none

/-- The `(?P<before_at>[^@]+)(@(?P<after_at>[^.]+))?.service` part of
SERVICE_NAME_PATTERN: greedy `[^@]+` for `before_at`, longest first, each
candidate followed by the tail match. -/
def matchCore (s : List Char) : Option (List Char × Option (List Char)) :=
  (countdown ((s.takeWhile (· ≠ '@')).length)).findSome? (fun i =>
    (matchTail (s.drop i)).map (fun a => (s.take i, a)))

/-- `SERVICE_NAME_PATTERN.match(service)` (process.py lines 16-18): the
optional `(appscale-)?` prefix group is tried first; if the remainder fails
to match with the prefix consumed, the group is skipped.  Returns the
`before_at` and `after_at` captures. -/
def serviceNameMatch (s : List Char) : Option (List Char × Option (List Char)) :=
  if "appscale-".data.isPrefixOf s then
    match matchCore (s.drop "appscale-".data.length) with
    | some r => some r
    | none => matchCore s
  else matchCore s

/-- The per-service loop body of `identify_appscale_service_processes`
(process.py lines 253-278): a failed `systemctl show` (reply `none`) is
skipped; the reply is stripped of blanks; when it is a digit string other
than `'0'`, the unit name is parsed and `pid → tags` is recorded. -/
def processUnit (known : List (ℕ × List String)) (service : String)
    (reply : Option String) : List (ℕ × List String) :=
  match reply with
  | none => known
  | some out =>
    let stripped := pyStripStr [' ', '\t', '\n'] out.data
    if isDigits stripped ∧ stripped ≠ ['0'] then
      match serviceNameMatch service.data with
      | none => known
      | some (beforeAt, afterAt) =>
        let tags := ["appscale", String.mk beforeAt]
        let tags := tags ++
          (match afterAt with
           | some a => (splitChar '_' a).map (fun part => "_" ++ String.mk part)
           | none => [])
        dictInsert known (natOfDigits stripped) tags
    else known

/-- `identify_appscale_service_processes` (process.py lines 245-279) as a
function of the unit list and of the main-PID replies (`none` models a
SubprocessError for that unit). -/
def identifyServiceProcesses (services : List String)
    (mainPidReply : String → Option String) : List (ℕ × List String) :=
  services.foldl (fun known service => processUnit known service (mainPidReply service)) []

/-! ### Peer protocol bodies and merge
(Hermes/appscale/hermes/resources/resource_handlers.py) -/

/-- The 8-byte delimiter `b'\n\n\xff\xff\xff\xff\n\n'` (resource_handlers.py
line 22). -/
def BODY_CONNECTOR : List ℕ := [10, 10, 255, 255, 255, 255, 10, 10]

/-- JSON values as `json.dumps` receives them.  Strings are lists of unicode
codepoints; numbers are restricted to ints (float formatting is orthogonal
to the byte-splicing protocol). -/
inductive JValue where
  | jnull
  | jbool (b : Bool)
  | jnum (n : ℤ)
  | jstr (s : List ℕ)
  | jarr (elems : List JValue)
  | jobj (items : List (List ℕ × JValue))

/-- A lowercase hex digit, as `json.dumps` emits in `\uXXXX` escapes. -/
def hexDigit (n : ℕ) : ℕ := if n < 10 then 48 + n else 87 + n

/-- Four hex digits. -/
def hex4 (n : ℕ) : List ℕ :=
  [hexDigit (n / 4096 % 16), hexDigit (n / 256 % 16),
   hexDigit (n / 16 % 16), hexDigit (n % 16)]

/-- `json.dumps` escaping of one string character (ensure_ascii default):
printable ASCII passes through, `"` `\` and the short control escapes are
backslashed, everything else becomes `\uXXXX` (a surrogate pair beyond the
BMP). -/
def escChar (c : ℕ) : List ℕ :=
  if c = 34 then [92, 34]
  else if c = 92 then [92, 92]
  else if 32 ≤ c ∧ c ≤ 126 then [c]
  else if c = 8 then [92, 98]
  else if c = 9 then [92, 116]
  else if c = 10 then [92, 110]
  else if c = 12 then [92, 102]
  else if c = 13 then [92, 114]
  else if c < 65536 then [92, 117] ++ hex4 c
  else [92, 117] ++ hex4 (55296 + (c - 65536) / 1024) ++
       [92, 117] ++ hex4 (56320 + (c - 65536) % 1024)

/-- The bytes of a JSON string literal. -/
def strBytes (s : List ℕ) : List ℕ := [34] ++ (s.map escChar).flatten ++ [34]

/-- Decimal digits of a natural number, most significant first. -/
def natDigitsAux : ℕ → ℕ → List ℕ → List ℕ
  | 0, _, acc => acc
  | fuel + 1, n, acc =>
    if n = 0 then acc else natDigitsAux fuel (n / 10) ((48 + n % 10) :: acc)

/-- The bytes of a JSON int literal. -/
def numBytes (i : ℤ) : List ℕ :=
  if i = 0 then [48]
  else if i < 0 then 45 :: natDigitsAux (i.natAbs + 1) i.natAbs []
  else natDigitsAux (i.natAbs + 1) i.natAbs []

mutual
/-- `json.dumps` with its default separators `', '` and `': '`
(ensure_ascii), encoded to bytes. -/
def pyDumps : JValue → List ℕ
  | .jnull => [110, 117, 108, 108]
  | .jbool true => [116, 114, 117, 101]
  | .jbool false => [102, 97, 108, 115, 101]
  | .jnum n => numBytes n
  | .jstr s => strBytes s
  | .jarr elems => [91] ++ pyDumpsArr elems ++ [93]
  | .jobj items => [123] ++ pyDumpsObj items ++ [125]

/-- Array elements joined by `', '`. -/
def pyDumpsArr : List JValue → List ℕ
  | [] => []
  | [v] => pyDumps v
  | v :: w :: rest => pyDumps v ++ [44, 32] ++ pyDumpsArr (w :: rest)

/-- Object items `key: value` joined by `', '`. -/
def pyDumpsObj : List (List ℕ × JValue) → List ℕ
  | [] => []
  | [(k, v)] => strBytes k ++ [58, 32] ++ pyDumps v
  | (k, v) :: e :: rest =>
    strBytes k ++ [58, 32] ++ pyDumps v ++ [44, 32] ++ pyDumpsObj (e :: rest)
end

/-- The `return-as-2-json-objects=yes` response body of `list_local`
(resource_handlers.py lines 70-77): the two JSON arrays around the connector,
separated from it by single spaces (`b'%(entities)b %(connector)b
%(failures)b'`). -/
def twoJsonBody (entities failures : JValue) : List ℕ :=
  pyDumps entities ++ [32] ++ BODY_CONNECTOR ++ [32] ++ pyDumps failures

/-- The codepoint bytes of an ASCII Lean string. -/
def strToCodes (s : String) : List ℕ := s.data.map Char.toNat

/-- The default JSON response body of `list_local` (resource_handlers.py
lines 78-84): `b'\x7b"entities": %(entities)b, "failures": %(failures)b\x7d'`. -/
def listLocalDefaultBody (entities failures : JValue) : List ℕ :=
  strToCodes "\x7b\"entities\": " ++ pyDumps entities ++
  strToCodes ", \"failures\": " ++ pyDumps failures ++ strToCodes "\x7d"

/-- `bytes.split(BODY_CONNECTOR)` (resource_handlers.py line 227): split on
every non-overlapping occurrence, leftmost first. -/
def splitOnConn : List ℕ → List (List ℕ)
  | [] => [[]]
  | x :: rest =>
    if BODY_CONNECTOR.isPrefixOf (x :: rest) then
      [] :: splitOnConn ((x :: rest).drop BODY_CONNECTOR.length)
    else
      match splitOnConn rest with
      | [] => [[x]]
      | h :: t => (x :: h) :: t
  termination_by l => l.length
  decreasing_by
    · simp [BODY_CONNECTOR]; omega
    · simp

/-- `bytes.strip(chars)`: drop the given bytes from both ends. -/
def pyStripBytes (l : List ℕ) (set : List ℕ) : List ℕ :=
  ((l.dropWhile (· ∈ set)).reverse.dropWhile (· ∈ set)).reverse

/-- `sep.join(parts)`. -/
def joinBytes (sep : List ℕ) : List (List ℕ) → List ℕ
  | [] => []
  | [x] => x
  | x :: y :: rest => x ++ sep ++ joinBytes sep (y :: rest)

/-- The aggregator's merge (resource_handlers.py lines 157-162): strip
`b'[] '` from each raw entities array, join with `b',\n\n'`, wrap in
brackets. -/
def mergeEntities (entitiesJsonList : List (List ℕ)) : List ℕ :=
  [91] ++
    joinBytes [44, 10, 10]
      (entitiesJsonList.map (fun raw => pyStripBytes raw [91, 93, 32])) ++
  [93]

/-! ### Cluster handler (resource_handlers.py lines 86-162) -/

/-- A failure entry `\x7b'host': …, 'message': …\x7d`. -/
structure Failure where
  host : String
  message : String
  deriving DecidableEq, Repr

/-- The outcome of `_get_from_node` for one peer: the raw entities JSON and
decoded failures, or a raised `HermesError\x7bhost, message\x7d`. -/
inductive PeerResult where
  | ok (entitiesJson : List ℕ) (failures : List Failure)
  | hermesError (host message : String)

/-- The request body state seen by `list_cluster`: absent, present but not
JSON-decodable (`ValueError`), or decoded JSON. -/
inductive ReqBody where
  | absent
  | malformed
  | json (v : JValue)

/-- Python subscript `v['locations']` on a decoded JSON value: KeyError on a
dict without the key, TypeError on any non-dict. -/
def pySubscript (v : JValue) (key : List ℕ) : Except PyErr JValue :=
  match v with
  | .jobj items =>
    match (items.find? (fun e => e.1 = key)).map (·.2) with
    | some x => .ok x
    | none => .error PyErr.keyError
  | _ => .error PyErr.typeError

/-- Python iteration over a decoded JSON value: a list yields its elements,
a string its characters, a dict its keys; anything else raises TypeError. -/
def pyIter : JValue → Except PyErr (List JValue)
  | .jarr l => .ok l
  | .jstr s => .ok (s.map (fun c => .jstr [c]))
  | .jobj items => .ok (items.map (fun e => .jstr e.1))
  | _ => .error PyErr.typeError

/-- The HTTP response of `list_cluster`: 400 with a reason built from the
caught error (lines 104-106), 200 with the merged body (lines 110-117), or
an exception escaping the handler uncaught. -/
inductive ClusterResponse where
  | badRequest (reason : PyErr)
  | okResp (entitiesJson : List ℕ) (failures : List Failure)
  | uncaught (e : PyErr)

/-- `process_node_result` (resource_handlers.py lines 132-146): append the
entities JSON when non-empty and extend the failures when non-empty; a
HermesError becomes a `\x7bhost, message\x7d` failure entry. -/
def processNodeResult (outcome : PeerResult)
    (acc : List (List ℕ) × List Failure) : List (List ℕ) × List Failure :=
  match outcome with
  | .ok entitiesJson nodeFailures =>
    let ents := if entitiesJson ≠ [] then acc.1 ++ [entitiesJson] else acc.1
    let fails := if nodeFailures ≠ [] then acc.2 ++ nodeFailures else acc.2
    (ents, fails)
  | .hermesError h m => (acc.1, acc.2 ++ [⟨h, m⟩])

/-- `_list_resource` (resource_handlers.py lines 119-162) with each peer's
outcome supplied by the oracle `peer`: collect per-node results, then merge
the raw entity arrays. -/
def listResource (locations : List JValue) (peer : JValue → PeerResult) :
    List ℕ × List Failure :=
  let res := locations.foldl (fun acc loc => processNodeResult (peer loc) acc) ([], [])
  (mergeEntities res.1, res.2)

/-- `list_cluster` (resource_handlers.py lines 86-117): a present body must
JSON-decode and support `['locations']`, else 400 with a reason; an absent
body uses `default_ips_getter()`; iterating a non-iterable locations value
raises TypeError out of the handler. -/
def listCluster (body : ReqBody) (defaultIps : List String)
    (peer : JValue → PeerResult) : ClusterResponse :=
  match body with
  | .malformed => .badRequest PyErr.valueError
  | .json v =>
    match pySubscript v (strToCodes "locations") with
    | .error e => .badRequest e
    | .ok locVal =>
      match pyIter locVal with
      | .error e => .uncaught e
      | .ok locs =>
        let r := listResource locs peer
        .okResp r.1 r.2
  | .absent =>
    let locs := defaultIps.map (fun ip => JValue.jstr (strToCodes ip))
    let r := listResource locs peer
    .okResp r.1 r.2

/-- The default `retry` instance `_Retry(...)` (retrying.py lines 299-307),
with the opaque `retry_on_exception` default modelled by `Unit`. -/
def defaultRetry : RetryCfg Unit :=
  { backoffBase := DEFAULT_BACKOFF_BASE,
    backoffMultiplier := DEFAULT_BACKOFF_MULTIPLIER,
    backoffThreshold := DEFAULT_BACKOFF_THRESHOLD,
    maxRetries := DEFAULT_MAX_RETRIES,
    retryingTimeout := DEFAULT_RETRYING_TIMEOUT,
    randomizeBackoff := DEFAULT_RANDOMIZE,
    retryOnException := () }

/-! ## Theorems -/

/-- Claim C4: a `BackoffSequence` built with all defaults, iterated to
exhaustion with no real time elapsing, yields exactly
`[0.2, 0.4, 0.8, 1.6, 3.2, 6.4, 12.8, 25.6, 51.2, 102.4, 204.8]`, and one
built with `max_retries=5, multiplier=0.1, base=2` yields exactly
`[0.1, 0.2, 0.4, 0.8, 1.6, 3.2]` (delays as exact rationals; the fuel 20
exceeds both lengths, so the lists end because `next` raises
StopIteration). -/
theorem c4_backoff_sequences :
    ((BackoffSeq.mk0 DEFAULT_BACKOFF_BASE DEFAULT_BACKOFF_MULTIPLIER
        DEFAULT_BACKOFF_THRESHOLD DEFAULT_MAX_RETRIES DEFAULT_RETRYING_TIMEOUT
        DEFAULT_RANDOMIZE).iterStart 0).map (BackoffSeq.drain 0 20) =
      some [1/5, 2/5, 4/5, 8/5, 16/5, 32/5, 64/5, 128/5, 256/5, 512/5, 1024/5] ∧
    ((BackoffSeq.mk0 2 (1/10) DEFAULT_BACKOFF_THRESHOLD 5
        DEFAULT_RETRYING_TIMEOUT DEFAULT_RANDOMIZE).iterStart 0).map
        (BackoffSeq.drain 0 20) =
      some [1/10, 1/5, 2/5, 4/5, 8/5, 16/5] := by
  exact ⟨by with_unfolding_all rfl, by with_unfolding_all rfl⟩

/-- Claim C10: whenever `has_next()` returns True, the immediately following
`next()` does not raise StopIteration, whatever time has passed in between —
`has_next` records `_promised_next`, which `next` honours. -/
theorem c10_has_next_promise (s : BackoffSeq) (now1 now2 rand : ℚ)
    (h : (s.hasNext now1).1 = true) :
    ((s.hasNext now1).2.next now2 rand).isSome = true := by
  simp only [BackoffSeq.hasNext] at h ⊢
  rw [h]
  simp [BackoffSeq.next]

/-- Witness for C10 at a concrete freshly-started default sequence. -/
theorem c10_has_next_promise_witness :
    ((BackoffSeq.mk0 DEFAULT_BACKOFF_BASE DEFAULT_BACKOFF_MULTIPLIER
        DEFAULT_BACKOFF_THRESHOLD DEFAULT_MAX_RETRIES DEFAULT_RETRYING_TIMEOUT
        DEFAULT_RANDOMIZE).hasNext 0).1 = true ∧
    ((((BackoffSeq.mk0 DEFAULT_BACKOFF_BASE DEFAULT_BACKOFF_MULTIPLIER
        DEFAULT_BACKOFF_THRESHOLD DEFAULT_MAX_RETRIES DEFAULT_RETRYING_TIMEOUT
        DEFAULT_RANDOMIZE).hasNext 0).2.next 100 0).isSome = true) :=
  ⟨by with_unfolding_all rfl,
   c10_has_next_promise _ 0 100 0 (by with_unfolding_all rfl)⟩

/-- Counterexample to claim C9: supplying only `randomize_backoff` as a
custom parameter does not produce a new configured retryer and the parameter
does not take effect — the source's `params` tuple omits `randomize_backoff`,
so the call falls through to `self.wrap(func)` on the unchanged default. -/
theorem c9_randomize_only_ignored :
    retryCall defaultRetry true none none none none none (some true) none =
      .wrapped defaultRetry ∧
    defaultRetry.randomizeBackoff = false := by
  exact ⟨rfl, rfl⟩

/-- Claim C9 (amended): when at least one custom parameter other than
`randomize_backoff` is supplied, `_Retry.__call__` builds a new configured
retryer in which every supplied parameter (randomize_backoff included) takes
effect and every omitted one keeps the default's value; the default instance
itself is not mutated (the embedding is pure, and the source constructs a
fresh `type(self)(...)`).  Used as a parameterised decorator (no `func`), the
new retryer itself is returned. -/
theorem c9_custom_params_new_retryer {E : Type} (self : RetryCfg E)
    (funcGiven : Bool) (bb bm bt : Option ℚ) (mr : Option ℕ) (rt : Option ℚ)
    (rb : Option Bool) (roe : Option E)
    (h : bb.isSome ∨ bm.isSome ∨ bt.isSome ∨ mr.isSome ∨ rt.isSome ∨ roe.isSome) :
    (retryCall self funcGiven bb bm bt mr rt rb roe).cfg =
      ({ backoffBase := bb.getD self.backoffBase,
         backoffMultiplier := bm.getD self.backoffMultiplier,
         backoffThreshold := bt.getD self.backoffThreshold,
         maxRetries := mr.getD self.maxRetries,
         retryingTimeout := rt.getD self.retryingTimeout,
         randomizeBackoff := rb.getD self.randomizeBackoff,
         retryOnException := roe.getD self.retryOnException } : RetryCfg E) ∧
    (funcGiven = false →
      retryCall self funcGiven bb bm bt mr rt rb roe =
        .newRetry (retryCall self funcGiven bb bm bt mr rt rb roe).cfg) := by
  unfold retryCall
  rw [if_pos h]
  cases funcGiven <;> simp [RetryCallResult.cfg, notMissed]

/-- Witness for C9 (amended) at a concrete invocation overriding
`max_retries` and `randomize_backoff` on the default retryer. -/
theorem c9_custom_params_new_retryer_witness :
    (retryCall defaultRetry false none none none (some 3) none (some true) none).cfg =
      ({ backoffBase := DEFAULT_BACKOFF_BASE,
         backoffMultiplier := DEFAULT_BACKOFF_MULTIPLIER,
         backoffThreshold := DEFAULT_BACKOFF_THRESHOLD,
         maxRetries := 3,
         retryingTimeout := DEFAULT_RETRYING_TIMEOUT,
         randomizeBackoff := true,
         retryOnException := () } : RetryCfg Unit) := by
  have h := (c9_custom_params_new_retryer defaultRetry false none none none (some 3)
    none (some true) none (by simp)).1
  simpa using h

/-- Claim C8: inside `persistent_execute`'s retry loop, a call whose
between-attempts sleep is awakened before the backoff timeout expires, or
which observes `waiters > 0` on wake, is treated as superseded: the
coroutine returns normally with no result and raises nothing. -/
theorem c8_superseded_silent {R : Type} (now rand : ℚ) (seq s' : BackoffSeq)
    (b : ℚ) (wake : Wake)
    (hnext : seq.next now rand = some (b, s'))
    (hmore : (s'.hasNext now).1 = true)
    (hw : wake.interrupted = true ∨ wake.waitersOnWake ≠ 0) :
    persistentStep now rand seq (Attempt.err (R := R) true) wake =
      .done .superseded := by
  unfold persistentStep
  rw [hnext]
  simp only [BackoffSeq.hasNext] at hmore ⊢
  simp [hmore, hw]

/-- Witness for C8 at a freshly-started default sequence with an
interrupted sleep. -/
theorem c8_superseded_silent_witness :
    (BackoffSeq.mk0 DEFAULT_BACKOFF_BASE DEFAULT_BACKOFF_MULTIPLIER
        DEFAULT_BACKOFF_THRESHOLD DEFAULT_MAX_RETRIES DEFAULT_RETRYING_TIMEOUT
        DEFAULT_RANDOMIZE).next 0 0 =
      some (1/5, { base := 2, backoff := 1/5, threshold := 300, maxRetries := 10,
                   timeout := 60, randomize := false, attemptNum := 1,
                   promisedNext := false, startTime := 0 }) ∧
    persistentStep 0 0
      (BackoffSeq.mk0 DEFAULT_BACKOFF_BASE DEFAULT_BACKOFF_MULTIPLIER
        DEFAULT_BACKOFF_THRESHOLD DEFAULT_MAX_RETRIES DEFAULT_RETRYING_TIMEOUT
        DEFAULT_RANDOMIZE)
      (Attempt.err (R := Unit) true) ⟨true, 0⟩ = .done .superseded :=
  ⟨by with_unfolding_all rfl,
   c8_superseded_silent 0 0 _
     { base := 2, backoff := 1/5, threshold := 300, maxRetries := 10,
       timeout := 60, randomize := false, attemptNum := 1,
       promisedNext := false, startTime := 0 }
     (1/5) ⟨true, 0⟩ (by with_unfolding_all rfl) (by with_unfolding_all rfl)
     (Or.inl rfl)⟩

/-- Helper: `applyDiffs` only writes the `*_1h_diff` fields; the identity
fields pass through. -/
theorem applyDiffs_preserves_identity (start_time : ℚ) (p prev q : ProcessSample)
    (h : applyDiffs start_time p prev = .ok q) :
    q.long_pid = p.long_pid ∧ q.pid = p.pid ∧ q.create_time = p.create_time ∧
    q.ppid = p.ppid ∧ q.all_tags = p.all_tags := by
  unfold applyDiffs at h
  cases ht : prev.utc_timestamp with
  | none => simp [ht] at h
  | some t =>
    simp only [ht] at h
    by_cases hz : start_time - t = 0
    · rw [if_pos hz] at h; simp at h
    · rw [if_neg hz] at h
      cases hio : p.io_counters with
      | none =>
        simp only [hio] at h
        injection h with h
        subst h
        simp
      | some cur =>
        simp only [hio] at h
        cases hpio : prev.io_counters with
        | none => simp [hpio] at h
        | some pv =>
          simp only [hpio] at h
          injection h with h
          subst h
          simp

/-- Helper: a successful `finalizeSample` stamps `long_pid` with the index
key and leaves `pid` and `create_time` as initialised. -/
theorem finalizeSample_identity (start_time : ℚ) (host : String)
    (dict previous : List (String × ProcessSample)) (lp : String)
    (p q : ProcessSample)
    (h : finalizeSample start_time host dict previous lp p = .ok q) :
    q.long_pid = some lp ∧ q.pid = p.pid ∧ q.create_time = p.create_time := by
  unfold finalizeSample at h
  cases hd : dictGet previous lp with
  | none =>
    simp only [hd] at h
    injection h with h
    subst h
    simp
  | some prev =>
    simp only [hd] at h
    cases ha : applyDiffs start_time { p with long_pid := some lp } prev with
    | error e => simp [ha] at h
    | ok p1 =>
      simp only [ha] at h
      obtain ⟨h1, h2, h3, -, -⟩ :=
        applyDiffs_preserves_identity _ _ _ _ ha
      injection h with h
      subst h
      simp_all

/-- Helper: every entry of `dictInsert m k v` is an old entry or `(k, v)`. -/
theorem mem_dictInsert [DecidableEq κ] {m : List (κ × α)} {k : κ} {v : α}
    {e : κ × α} (h : e ∈ dictInsert m k v) : e ∈ m ∨ e = (k, v) := by
  unfold dictInsert at h
  split at h
  · rcases List.mem_map.1 h with ⟨a, ha, rfl⟩
    by_cases hk : a.1 = k
    · right; simp [hk]
    · left; simpa [hk] using ha
  · rcases List.mem_append.1 h with h | h
    · exact Or.inl h
    · right; simpa using h

/-- Helper: every entry of the per-scrape index built by `list_processes` is
keyed by the `longPidStr` of its own sample. -/
theorem index_key_inv (host : String) (known : List (ℕ × List String)) :
    ∀ (procs : List ProcInfo) (m0 : List (String × ProcessSample)),
      (∀ x ∈ m0, x.1 = longPidStr host x.2.pid x.2.create_time) →
      ∀ x ∈ procs.foldl (fun m proc =>
          dictInsert m (longPidStr host proc.pid proc.create_time)
            (initProcessInfo proc known)) m0,
        x.1 = longPidStr host x.2.pid x.2.create_time := by
  intro procs
  induction procs with
  | nil => intro m0 h0 x hx; exact h0 x hx
  | cons proc rest ih =>
    intro m0 h0 x hx
    refine ih _ ?_ x hx
    intro y hy
    rcases mem_dictInsert hy with hm | rfl
    · exact h0 y hm
    · simp [initProcessInfo]

/-- Helper: every output entry of `finalizeAll` comes from a successful
`finalizeSample` on an input entry with the same key. -/
theorem finalizeAll_mem (start_time : ℚ) (host : String)
    (dict previous : List (String × ProcessSample)) :
    ∀ (l l' : List (String × ProcessSample)),
      finalizeAll start_time host dict previous l = .ok l' →
      ∀ y ∈ l', ∃ x ∈ l,
        finalizeSample start_time host dict previous x.1 x.2 = .ok y.2 ∧
        y.1 = x.1 := by
  intro l
  induction l with
  | nil =>
    intro l' h y hy
    unfold finalizeAll at h
    injection h with h
    subst h
    cases hy
  | cons e rest ih =>
    intro l' h y hy
    unfold finalizeAll at h
    cases hq : finalizeSample start_time host dict previous e.1 e.2 with
    | error _ => simp [hq] at h
    | ok q =>
      simp only [hq] at h
      cases ho : finalizeAll start_time host dict previous rest with
      | error _ => simp [ho] at h
      | ok others =>
        simp only [ho] at h
        injection h with h
        subst h
        rcases List.mem_cons.1 hy with rfl | hy
        · exact ⟨e, List.mem_cons_self e rest, hq, rfl⟩
        · rcases ih others ho y hy with ⟨x, hx, hfx, hk⟩
          exact ⟨x, List.mem_cons_of_mem e hx, hfx, hk⟩

/-- Claim C1 (code bug): with the two samples of the spec's scenario S5
(`pid=100, ppid=50, own_tags=["appscale","a"]` and `pid=50, ppid=1,
own_tags=["appscale","b"]`), the sample for pid 100 ends the scrape with
`all_tags == ["appscale","a"]`, not
`["appscale","a","appscale","b"]`: `list_ancestors_tags` queries the
long_pid-string-keyed index with the int `ppid` (process.py line 127), so no
parent is ever found and ancestor tags are never appended. -/
theorem c1_ancestor_walk_lost :
    (listProcesses 5 "myhost" [(100, ["appscale", "a"]), (50, ["appscale", "b"])]
        [⟨100, 50, "aproc", 3, 0, 0, none, 0, 0⟩, ⟨50, 1, "bproc", 3, 0, 0, none, 0, 0⟩]
        []).map (fun r => r.1.map (fun s => (s.pid, s.all_tags))) =
      .ok [(100, ["appscale", "a"]), (50, ["appscale", "b"])] := by
  with_unfolding_all rfl

/-- Counterexample to claim C3: the long_pid emitted by `list_processes` for
a process with pid 100 and createTime 3s on host "myhost" is
`"myhost_100_3000"` — built by `'{}_{}_{}'.format(...)` with underscores
(process.py lines 113-114) — and not the colon-joined `"myhost:100:3000"`
the claim states. -/
theorem c3_long_pid_not_colon_joined :
    (listProcesses 5 "myhost" [] [⟨100, 50, "aproc", 3, 0, 0, none, 0, 0⟩]
        []).map (fun r => r.1.map (fun s => s.long_pid)) =
      .ok [some "myhost_100_3000"] ∧
    "myhost_100_3000" ≠
      "myhost" ++ ":" ++ toString (100 : ℕ) ++ ":" ++ toString (pyTrunc (3 * 1000)) := by
  exact ⟨by with_unfolding_all rfl, by with_unfolding_all decide⟩

/-- Claim C3 (amended): every sample emitted by a scrape carries
`long_pid = host + "_" + pid + "_" + int(createTime×1000)` — host, pid and
create-time-in-milliseconds joined by underscore characters (the same string
keys the per-scrape index and the previous-snapshot map). -/
theorem c3_long_pid_underscore_joined (start_time : ℚ) (host : String)
    (known : List (ℕ × List String)) (procs : List ProcInfo)
    (previous : List (String × ProcessSample))
    (r : List ProcessSample × List (String × ProcessSample))
    (h : listProcesses start_time host known procs previous = .ok r) :
    ∀ s ∈ r.1, s.long_pid = some (longPidStr host s.pid s.create_time) := by
  intro s hs
  unfold listProcesses at h
  dsimp only at h
  cases hf : finalizeAll start_time host
      (procs.foldl (fun m proc =>
        dictInsert m (longPidStr host proc.pid proc.create_time)
          (initProcessInfo proc known)) [])
      previous
      (procs.foldl (fun m proc =>
        dictInsert m (longPidStr host proc.pid proc.create_time)
          (initProcessInfo proc known)) []) with
  | error _ => simp [hf] at h
  | ok fin =>
    simp only [hf] at h
    injection h with h
    subst h
    rcases List.mem_map.1 hs with ⟨y, hy, rfl⟩
    rcases finalizeAll_mem _ _ _ _ _ _ hf y hy with ⟨x, hx, hfx, -⟩
    obtain ⟨h1, h2, h3⟩ := finalizeSample_identity _ _ _ _ _ _ _ hfx
    have hkey := index_key_inv host known procs [] (by intro x hx; cases hx) x hx
    rw [h1, hkey, h2, h3]

/-- Witness for C3 (amended) at a concrete single-process scrape. -/
theorem c3_long_pid_underscore_joined_witness :
    ∃ r, listProcesses 5 "myhost" [] [⟨100, 50, "aproc", 3, 0, 0, none, 0, 0⟩] []
        = .ok r ∧
      ∀ s ∈ r.1, s.long_pid = some (longPidStr "myhost" s.pid s.create_time) := by
  obtain ⟨r, hr⟩ :
      ∃ r, listProcesses 5 "myhost" [] [⟨100, 50, "aproc", 3, 0, 0, none, 0, 0⟩] []
        = .ok r :=
    ⟨_, by with_unfolding_all rfl⟩
  exact ⟨r, hr, c3_long_pid_underscore_joined 5 "myhost" [] _ [] r hr⟩

/-- Counterexample to claim C2: with a previous snapshot whose
`utc_timestamp` is 10 and a scrape starting at 5 (elapsed = −5 ≤ 0), the
disk-IO `*_1h_diff` fields do not remain absent: they are set using the
negative coefficient 3600/(−5) = −720. -/
theorem c2_negative_elapsed_sets_diffs :
    (listProcesses 5 "myhost" []
        [⟨100, 50, "cproc", 3, 20, 30, some ⟨7, 8, 9, 11⟩, 40, 50⟩]
        [("myhost_100_3000",
          { initProcessInfo ⟨100, 50, "cproc", 3, 10, 15, some ⟨1, 2, 3, 4⟩, 20, 25⟩ [] with
            utc_timestamp := some 10, long_pid := some "myhost_100_3000" })]).map
      (fun r => r.1.map (fun s => (s.disk_io_read_count_1h_diff,
        s.disk_io_write_count_1h_diff, s.disk_io_read_bytes_1h_diff,
        s.disk_io_write_bytes_1h_diff))) =
      .ok [(some (-4320), some (-4320), some (-4320), some (-5040))] := by
  with_unfolding_all rfl

/-- Claim C2 (amended): when the previous snapshot holds the sample's
long_pid, the disk-IO `*_1h_diff` fields are populated whenever the current
sample's IO counters are present and the elapsed time is non-zero — the
elapsed time's sign is not checked (a negative elapsed sets the fields with
a negative coefficient, a zero elapsed raises ZeroDivisionError, and a
present-current/absent-previous IO pair raises TypeError); when the
long_pid is not in the previous snapshot, no `*_1h_diff` field is set. -/
theorem c2_diff_population :
    (∀ (start_time : ℚ) (host : String)
       (dict previous : List (String × ProcessSample)) (lp : String)
       (p prev : ProcessSample) (t : ℚ) (cur pv : IOCounters),
      dictGet previous lp = some prev →
      prev.utc_timestamp = some t →
      start_time - t ≠ 0 →
      p.io_counters = some cur →
      prev.io_counters = some pv →
      ∃ q, finalizeSample start_time host dict previous lp p = .ok q ∧
        q.disk_io_read_count_1h_diff =
          some ((cur.read_count - pv.read_count) * (60 * 60 / (start_time - t))) ∧
        q.disk_io_write_count_1h_diff =
          some ((cur.write_count - pv.write_count) * (60 * 60 / (start_time - t))) ∧
        q.disk_io_read_bytes_1h_diff =
          some ((cur.read_bytes - pv.read_bytes) * (60 * 60 / (start_time - t))) ∧
        q.disk_io_write_bytes_1h_diff =
          some ((cur.write_bytes - pv.write_bytes) * (60 * 60 / (start_time - t)))) ∧
    (∀ (start_time : ℚ) (host : String)
       (dict previous : List (String × ProcessSample)) (lp : String)
       (p : ProcessSample),
      dictGet previous lp = none →
      ∃ q, finalizeSample start_time host dict previous lp p = .ok q ∧
        q.disk_io_read_count_1h_diff = p.disk_io_read_count_1h_diff ∧
        q.disk_io_write_count_1h_diff = p.disk_io_write_count_1h_diff ∧
        q.disk_io_read_bytes_1h_diff = p.disk_io_read_bytes_1h_diff ∧
        q.disk_io_write_bytes_1h_diff = p.disk_io_write_bytes_1h_diff) := by
  constructor
  · intro start_time host dict previous lp p prev t cur pv hprev ht hne hio hpio
    unfold finalizeSample applyDiffs
    dsimp only
    simp only [hprev, ht, if_neg hne]
    simp only [hio, hpio]
    exact ⟨_, rfl, rfl, rfl, rfl, rfl⟩
  · intro start_time host dict previous lp p hprev
    unfold finalizeSample
    dsimp only
    simp only [hprev]
    exact ⟨_, rfl, rfl, rfl, rfl, rfl⟩

/-- Witness for C2 (amended) applying both conjuncts at concrete samples. -/
theorem c2_diff_population_witness :
    (∃ q, finalizeSample 5 "myhost" []
        [("k", { initProcessInfo ⟨100, 50, "c", 3, 10, 15, some ⟨1, 2, 3, 4⟩, 20, 25⟩ [] with
                 utc_timestamp := some 10 })] "k"
        (initProcessInfo ⟨100, 50, "c", 3, 20, 30, some ⟨7, 8, 9, 11⟩, 40, 50⟩ [])
        = .ok q ∧
      q.disk_io_read_count_1h_diff = some ((7 - 1) * (60 * 60 / ((5 : ℚ) - 10))) ∧
      q.disk_io_write_count_1h_diff = some ((8 - 2) * (60 * 60 / ((5 : ℚ) - 10))) ∧
      q.disk_io_read_bytes_1h_diff = some ((9 - 3) * (60 * 60 / ((5 : ℚ) - 10))) ∧
      q.disk_io_write_bytes_1h_diff = some ((11 - 4) * (60 * 60 / ((5 : ℚ) - 10)))) ∧
    (∃ q, finalizeSample 5 "myhost" [] [] "k"
        (initProcessInfo ⟨100, 50, "c", 3, 20, 30, some ⟨7, 8, 9, 11⟩, 40, 50⟩ [])
        = .ok q ∧
      q.disk_io_read_count_1h_diff = none ∧
      q.disk_io_write_count_1h_diff = none ∧
      q.disk_io_read_bytes_1h_diff = none ∧
      q.disk_io_write_bytes_1h_diff = none) := by
  constructor
  · exact c2_diff_population.1 5 "myhost" _ _ "k" _ _ 10 ⟨7, 8, 9, 11⟩ ⟨1, 2, 3, 4⟩
      (by with_unfolding_all rfl) rfl (by with_unfolding_all decide) rfl rfl
  · have h := c2_diff_population.2 5 "myhost" [] [] "k"
      (initProcessInfo ⟨100, 50, "c", 3, 20, 30, some ⟨7, 8, 9, 11⟩, 40, 50⟩ [])
      (by with_unfolding_all rfl)
    simpa [initProcessInfo] using h

/-- Helper: `takeWhile` stops exactly at the first failing element. -/
theorem takeWhile_append_stop {α} (p : α → Bool) (l r : List α) (x : α)
    (hl : ∀ c ∈ l, p c = true) (hx : p x = false) :
    (l ++ x :: r).takeWhile p = l := by
  induction l with
  | nil => simp [List.takeWhile, hx]
  | cons c cs ih =>
    have hc := hl c (by simp)
    simp only [List.cons_append, List.takeWhile_cons, hc, if_true]
    rw [ih (fun d hd => hl d (by simp [hd]))]

/-- Helper: `takeWhile` keeps a list all of whose elements pass. -/
theorem takeWhile_all {α} (p : α → Bool) (l : List α)
    (hl : ∀ c ∈ l, p c = true) : l.takeWhile p = l := by
  induction l with
  | nil => rfl
  | cons c cs ih =>
    simp only [List.takeWhile_cons, hl c (by simp), if_true]
    rw [ih (fun d hd => hl d (by simp [hd]))]

/-- Helper: a matching `.service` tail is at least 8 characters long. -/
theorem dotService_length {t : List Char} (h : dotService t = true) :
    8 ≤ t.length := by
  cases t with
  | nil => cases h
  | cons c rest =>
    unfold dotService at h
    have hp : "service".data <+: rest := by
      exact List.isPrefixOf_iff_prefix.1 h
    have := hp.length_le
    simp at this ⊢
    omega

/-- Helper: a failing `dotService` as a Bool equation. -/
theorem dotService_false_of_short {t : List Char} (h : t.length < 8) :
    dotService t = false := by
  cases hd : dotService t
  · rfl
  · exact absurd (dotService_length hd) (by omega)

/-- Helper: the `(@(?P<after_at>[^.]+))?.service` tail cannot match fewer
than 8 remaining characters. -/
theorem matchTail_none_of_short (t : List Char) (h : t.length < 8) :
    matchTail t = none := by
  unfold matchTail
  split
  · rename_i u
    have hnone : ∀ (L : List ℕ), List.findSome? (fun i =>
        if dotService (u.drop i) then some (u.take i) else none) L = none := by
      intro L
      rw [List.findSome?_eq_none_iff]
      intro i _
      have hlen : (u.drop i).length < 8 := by
        have hd := List.length_drop i u
        have hu : u.length + 1 < 8 := by simpa using h
        omega
      simp [dotService_false_of_short hlen]
    rw [hnone]
    simp [dotService_false_of_short h]
  · simp [dotService_false_of_short h]

/-- Helper: appending to the countdown range, a greedy quantifier that fails
on every length above `m` reduces to the countdown from `m`. -/
theorem findSome?_countdown_skip {α} (f : ℕ → Option α) (m : ℕ)
    (h : ∀ j, m < j → f j = none) :
    ∀ k, (countdown (m + k)).findSome? f = (countdown m).findSome? f := by
  intro k
  induction k with
  | zero => rfl
  | succ k ih =>
    have hc : countdown (m + (k + 1)) = (m + k + 1) :: countdown (m + k) := rfl
    rw [hc, List.findSome?_cons, h _ (by omega)]
    exact ih

/-- Helper: `l.isPrefixOf (l ++ t)`. -/
theorem isPrefixOf_append_self {α} [BEq α] [LawfulBEq α] (l t : List α) :
    l.isPrefixOf (l ++ t) = true := by
  rw [List.isPrefixOf_iff_prefix]
  exact List.prefix_append l t

/-- Helper: the core pattern on `before_at ++ "@" ++ after_at ++ ".service"`
captures exactly the two groups (greedy `[^@]+` stops at the `@`, greedy
`[^.]+` stops at the dot). -/
theorem matchCore_with_at (b a : List Char) (hb : b ≠ []) (hbAt : '@' ∉ b)
    (ha : a ≠ []) (haDot : '.' ∉ a) :
    matchCore (b ++ '@' :: (a ++ '.' :: "service".data)) = some (b, some a) := by
  unfold matchCore
  have htw : ((b ++ '@' :: (a ++ '.' :: "service".data)).takeWhile
      (fun x => decide (x ≠ '@'))) = b := by
    refine takeWhile_append_stop _ _ _ _ (fun c hc => ?_) (by simp)
    simp only [decide_eq_true_eq]
    intro hcontra
    exact hbAt (hcontra ▸ hc)
  rw [htw]
  obtain ⟨n, hn⟩ : ∃ n, b.length = n + 1 := by
    cases b with
    | nil => exact absurd rfl hb
    | cons c cs => exact ⟨cs.length, by simp⟩
  have hdrop : (b ++ '@' :: (a ++ '.' :: "service".data)).drop (n + 1) =
      '@' :: (a ++ '.' :: "service".data) := by
    rw [← hn, List.drop_left]
  have htake : (b ++ '@' :: (a ++ '.' :: "service".data)).take (n + 1) = b := by
    rw [← hn, List.take_left]
  have htail : matchTail ('@' :: (a ++ '.' :: "service".data)) = some (some a) := by
    have htwa : ((a ++ '.' :: "service".data).takeWhile
        (fun x => decide (x ≠ '.'))) = a := by
      refine takeWhile_append_stop _ _ _ _ (fun c hc => ?_) (by simp)
      simp only [decide_eq_true_eq]
      intro hcontra
      exact haDot (hcontra ▸ hc)
    obtain ⟨m, hm⟩ : ∃ m, a.length = m + 1 := by
      cases a with
      | nil => exact absurd rfl ha
      | cons c cs => exact ⟨cs.length, by simp⟩
    have hdropa : (a ++ '.' :: "service".data).drop (m + 1) = '.' :: "service".data := by
      rw [← hm, List.drop_left]
    have htakea : (a ++ '.' :: "service".data).take (m + 1) = a := by
      rw [← hm, List.take_left]
    have hds : dotService ('.' :: "service".data) = true := by decide
    simp only [matchTail, htwa, hm, countdown, List.findSome?_cons, hdropa,
      htakea, hds, if_true]
  rw [hn]
  simp only [countdown, List.findSome?_cons, hdrop, htake, htail]
  rfl

/-- Helper: the core pattern on `before_at ++ ".service"` (no `@`): the
greedy `[^@]+` swallows the whole string and backtracks to leave exactly
`.service`. -/
theorem matchCore_no_at (b : List Char) (hb : b ≠ []) (hbAt : '@' ∉ b) :
    matchCore (b ++ '.' :: "service".data) = some (b, none) := by
  unfold matchCore
  have htw : ((b ++ '.' :: "service".data).takeWhile (fun x => decide (x ≠ '@'))) =
      b ++ '.' :: "service".data := by
    refine takeWhile_all _ _ (fun c hc => ?_)
    have hall : ∀ c ∈ ('.' :: "service".data), ¬ c = '@' := by decide
    simp only [decide_eq_true_eq]
    rcases List.mem_append.1 hc with hcb | hcs
    · intro hcontra; exact hbAt (hcontra ▸ hcb)
    · exact hall c hcs
  rw [htw]
  have hlen : (b ++ '.' :: "service".data).length = b.length + 8 := by simp
  rw [hlen]
  have hskip : ∀ j, b.length < j →
      ((matchTail ((b ++ '.' :: "service".data).drop j)).map
        (fun a => ((b ++ '.' :: "service".data).take j, a))) = none := by
    intro j hj
    have hlj : ((b ++ '.' :: "service".data).drop j).length < 8 := by
      rw [List.length_drop, hlen]
      omega
    rw [matchTail_none_of_short _ hlj]
    rfl
  rw [findSome?_countdown_skip _ b.length hskip 8]
  obtain ⟨n, hn⟩ : ∃ n, b.length = n + 1 := by
    cases b with
    | nil => exact absurd rfl hb
    | cons c cs => exact ⟨cs.length, by simp⟩
  have hdrop : (b ++ '.' :: "service".data).drop (n + 1) = '.' :: "service".data := by
    rw [← hn, List.drop_left]
  have htake : (b ++ '.' :: "service".data).take (n + 1) = b := by
    rw [← hn, List.take_left]
  have htail : matchTail ('.' :: "service".data) = some none := by decide
  rw [hn]
  simp only [countdown, List.findSome?_cons, hdrop, htake, htail]
  rfl

/-- Helper: `dropWhile` keeps a list whose elements all fail the predicate. -/
theorem dropWhile_eq_self_of_all {α} (p : α → Bool) (l : List α)
    (h : ∀ c ∈ l, p c = false) : l.dropWhile p = l := by
  cases l with
  | nil => rfl
  | cons c cs => simp [List.dropWhile_cons, h c (by simp)]

/-- Helper: the `(appscale-)?` group consumes a literal `appscale-` prefix
when the rest of the pattern then matches. -/
theorem serviceNameMatch_prefixed (core : List Char)
    (r : List Char × Option (List Char)) (h : matchCore core = some r) :
    serviceNameMatch ("appscale-".data ++ core) = some r := by
  unfold serviceNameMatch
  rw [if_pos (isPrefixOf_append_self "appscale-".data core)]
  rw [List.drop_left, h]

/-- Helper: without the literal prefix, the whole name is matched by the
core pattern. -/
theorem serviceNameMatch_unprefixed (s : List Char)
    (h : "appscale-".data.isPrefixOf s = false) :
    serviceNameMatch s = matchCore s := by
  unfold serviceNameMatch
  rw [if_neg]
  simp [h]

/-- Helper: a digit character is not one of the stripped blanks. -/
theorem char_digit_not_blank {c : Char} (h1 : '0' ≤ c) (h2 : c ≤ '9') :
    decide (c ∈ [' ', '\t', '\n']) = false := by
  simp only [decide_eq_false_iff_not]
  intro hc
  simp only [List.mem_cons, List.not_mem_nil, or_false] at hc
  rcases hc with rfl | rfl | rfl
  · exact absurd h1 (by decide)
  · exact absurd h1 (by decide)
  · exact absurd h1 (by decide)

/-- Helper: stripping blanks from a digit string is the identity. -/
theorem pyStripStr_digits (l : List Char) (h : isDigits l = true) :
    pyStripStr [' ', '\t', '\n'] l = l := by
  have hall : ∀ c ∈ l, decide (c ∈ [' ', '\t', '\n']) = false := by
    intro c hc
    simp only [isDigits, Bool.and_eq_true, decide_eq_true_eq, List.all_eq_true] at h
    obtain ⟨h1, h2⟩ := h.2 c hc
    exact char_digit_not_blank h1 h2
  unfold pyStripStr
  rw [dropWhile_eq_self_of_all _ _ hall,
    dropWhile_eq_self_of_all _ _ (fun c hc => hall c (List.mem_reverse.1 hc)),
    List.reverse_reverse]

/-- Helper: the per-unit loop body on a parsed unit name and a clean
numeric reply inserts `pid → tags`. -/
theorem processUnit_eq (known : List (ℕ × List String)) (service reply : String)
    (b : List Char) (aOpt : Option (List Char))
    (hdig : isDigits reply.data = true) (hz : reply.data ≠ ['0'])
    (hm : serviceNameMatch service.data = some (b, aOpt)) :
    processUnit known service (some reply) =
      dictInsert known (natOfDigits reply.data)
        (["appscale", String.mk b] ++
          (match aOpt with
           | some a => (splitChar '_' a).map (fun part => "_" ++ String.mk part)
           | none => [])) := by
  unfold processUnit
  dsimp only
  rw [pyStripStr_digits _ hdig, if_pos ⟨hdig, hz⟩]
  simp only [hm]
  cases aOpt <;> rfl

/-- Claim C6: unit-based discovery.  Conjunct 1 is scenario S1: the two
concrete units with main-PID replies 10029 and 10034 produce exactly the
claimed catalog.  Conjuncts 2-5 are the general parsing rule
`(appscale-)?<before-at>(@<after-at>)?.service`: a well-formed unit name
with a numeric non-zero main-PID reply contributes
`pid → ["appscale", before-at] ++ ("_"-prefixed parts of after-at split on
"_")`, for all four prefix/at combinations (the non-prefixed forms need the
name not to start with `appscale-`, which the regex would strip). -/
theorem c6_unit_discovery :
    (identifyServiceProcesses
      ["appscale-haproxy@app.service",
       "appscale-instance-run@testapp_mod1_v1_1570022208920-20000.service"]
      (fun s =>
        if s = "appscale-haproxy@app.service" then some "10029"
        else if s = "appscale-instance-run@testapp_mod1_v1_1570022208920-20000.service"
          then some "10034"
        else none) =
      [(10029, ["appscale", "haproxy", "_app"]),
       (10034, ["appscale", "instance-run", "_testapp", "_mod1", "_v1",
                "_1570022208920-20000"])]) ∧
    (∀ (known : List (ℕ × List String)) (b a : List Char) (reply : String),
      b ≠ [] → '@' ∉ b → a ≠ [] → '.' ∉ a →
      isDigits reply.data = true → reply.data ≠ ['0'] →
      processUnit known
          (String.mk ("appscale-".data ++ (b ++ '@' :: (a ++ '.' :: "service".data))))
          (some reply) =
        dictInsert known (natOfDigits reply.data)
          (["appscale", String.mk b] ++
            (splitChar '_' a).map (fun part => "_" ++ String.mk part))) ∧
    (∀ (known : List (ℕ × List String)) (b : List Char) (reply : String),
      b ≠ [] → '@' ∉ b →
      isDigits reply.data = true → reply.data ≠ ['0'] →
      processUnit known
          (String.mk ("appscale-".data ++ (b ++ '.' :: "service".data)))
          (some reply) =
        dictInsert known (natOfDigits reply.data) ["appscale", String.mk b]) ∧
    (∀ (known : List (ℕ × List String)) (b a : List Char) (reply : String),
      b ≠ [] → '@' ∉ b → a ≠ [] → '.' ∉ a →
      "appscale-".data.isPrefixOf (b ++ '@' :: (a ++ '.' :: "service".data)) = false →
      isDigits reply.data = true → reply.data ≠ ['0'] →
      processUnit known
          (String.mk (b ++ '@' :: (a ++ '.' :: "service".data)))
          (some reply) =
        dictInsert known (natOfDigits reply.data)
          (["appscale", String.mk b] ++
            (splitChar '_' a).map (fun part => "_" ++ String.mk part))) ∧
    (∀ (known : List (ℕ × List String)) (b : List Char) (reply : String),
      b ≠ [] → '@' ∉ b →
      "appscale-".data.isPrefixOf (b ++ '.' :: "service".data) = false →
      isDigits reply.data = true → reply.data ≠ ['0'] →
      processUnit known
          (String.mk (b ++ '.' :: "service".data))
          (some reply) =
        dictInsert known (natOfDigits reply.data) ["appscale", String.mk b]) := by
  refine ⟨by with_unfolding_all rfl, ?_, ?_, ?_, ?_⟩
  · intro known b a reply hb hbAt ha haDot hdig hz
    exact processUnit_eq known _ reply b (some a) hdig hz
      (serviceNameMatch_prefixed _ _ (matchCore_with_at b a hb hbAt ha haDot))
  · intro known b reply hb hbAt hdig hz
    exact processUnit_eq known _ reply b none hdig hz
      (serviceNameMatch_prefixed _ _ (matchCore_no_at b hb hbAt))
  · intro known b a reply hb hbAt ha haDot hpre hdig hz
    have hm : serviceNameMatch (b ++ '@' :: (a ++ '.' :: "service".data)) =
        some (b, some a) := by
      rw [serviceNameMatch_unprefixed _ hpre]
      exact matchCore_with_at b a hb hbAt ha haDot
    exact processUnit_eq known _ reply b (some a) hdig hz hm
  · intro known b reply hb hbAt hpre hdig hz
    have hm : serviceNameMatch (b ++ '.' :: "service".data) = some (b, none) := by
      rw [serviceNameMatch_unprefixed _ hpre]
      exact matchCore_no_at b hb hbAt
    exact processUnit_eq known _ reply b none hdig hz hm

/-- Witness for C6 applying the general conjuncts at the concrete unit
names of scenario S1 (and an unprefixed `nginx` unit). -/
theorem c6_unit_discovery_witness :
    (processUnit [] (String.mk ("appscale-".data ++
        ("haproxy".data ++ '@' :: ("app".data ++ '.' :: "service".data))))
        (some "10029") =
      dictInsert [] (natOfDigits "10029".data)
        (["appscale", String.mk "haproxy".data] ++
          (splitChar '_' "app".data).map (fun part => "_" ++ String.mk part))) ∧
    (processUnit [] (String.mk ("appscale-".data ++
        ("memcached".data ++ '.' :: "service".data))) (some "10035") =
      dictInsert [] (natOfDigits "10035".data)
        ["appscale", String.mk "memcached".data]) ∧
    (processUnit [] (String.mk ("nginx".data ++ '.' :: "service".data))
        (some "9022") =
      dictInsert [] (natOfDigits "9022".data)
        ["appscale", String.mk "nginx".data]) := by
  refine ⟨?_, ?_, ?_⟩
  · exact c6_unit_discovery.2.1 [] "haproxy".data "app".data "10029"
      (by decide) (by decide) (by decide) (by decide) (by decide) (by decide)
  · exact c6_unit_discovery.2.2.1 [] "memcached".data "10035"
      (by decide) (by decide) (by decide) (by decide)
  · exact c6_unit_discovery.2.2.2.2 [] "nginx".data "9022"
      (by decide) (by decide) (by decide) (by decide) (by decide)

/-- Helper: hex digits are ASCII. -/
theorem hexDigit_lt (n : ℕ) : hexDigit (n % 16) < 128 := by
  unfold hexDigit
  split <;> omega

/-- Helper: `hex4` emits ASCII bytes. -/
theorem hex4_lt {n b : ℕ} (h : b ∈ hex4 n) : b < 128 := by
  unfold hex4 at h
  simp only [List.mem_cons, List.not_mem_nil, or_false] at h
  rcases h with rfl | rfl | rfl | rfl <;> exact hexDigit_lt _

/-- Helper: `json.dumps` string escaping emits only ASCII bytes. -/
theorem escChar_lt {c b : ℕ} (h : b ∈ escChar c) : b < 128 := by
  unfold escChar at h
  split at h
  · simp at h; omega
  split at h
  · simp at h; omega
  split at h
  · rename_i hrange
    simp at h
    omega
  split at h
  · simp at h; omega
  split at h
  · simp at h; omega
  split at h
  · simp at h; omega
  split at h
  · simp at h; omega
  split at h
  · simp at h; omega
  split at h
  · rcases List.mem_append.1 h with h | h
    · simp at h; rcases h with rfl | rfl <;> omega
    · exact hex4_lt h
  · rcases List.mem_append.1 h with h | h
    · rcases List.mem_append.1 h with h | h
      · rcases List.mem_append.1 h with h | h
        · simp at h; rcases h with rfl | rfl <;> omega
        · exact hex4_lt h
      · simp at h; rcases h with rfl | rfl <;> omega
    · exact hex4_lt h

/-- Helper: JSON string literals are ASCII bytes. -/
theorem strBytes_lt {s : List ℕ} {b : ℕ} (h : b ∈ strBytes s) : b < 128 := by
  unfold strBytes at h
  rcases List.mem_append.1 h with h | h
  · rcases List.mem_append.1 h with h | h
    · simp at h; omega
    · rcases List.mem_flatten.1 h with ⟨l, hl, hb⟩
      rcases List.mem_map.1 hl with ⟨c, -, rfl⟩
      exact escChar_lt hb
  · simp at h; omega

/-- Helper: decimal digit accumulation emits ASCII bytes. -/
theorem natDigitsAux_lt :
    ∀ (fuel n : ℕ) (acc : List ℕ), (∀ a ∈ acc, a < 128) →
      ∀ b ∈ natDigitsAux fuel n acc, b < 128 := by
  intro fuel
  induction fuel with
  | zero => intro n acc hacc b hb; exact hacc b hb
  | succ f ih =>
    intro n acc hacc b hb
    unfold natDigitsAux at hb
    split at hb
    · exact hacc b hb
    · refine ih _ _ ?_ b hb
      intro a ha
      rcases List.mem_cons.1 ha with rfl | ha
      · omega
      · exact hacc a ha

/-- Helper: JSON int literals are ASCII bytes. -/
theorem numBytes_lt {i : ℤ} {b : ℕ} (h : b ∈ numBytes i) : b < 128 := by
  unfold numBytes at h
  split at h
  · simp at h; omega
  split at h
  · rcases List.mem_cons.1 h with rfl | h
    · omega
    · exact natDigitsAux_lt _ _ _ (by intro a ha; cases ha) b h
  · exact natDigitsAux_lt _ _ _ (by intro a ha; cases ha) b h

mutual
/-- Helper: `json.dumps` output (ensure_ascii) is ASCII bytes, so the
`0xff` bytes of BODY_CONNECTOR never occur in it. -/
theorem pyDumps_lt : ∀ (v : JValue), ∀ b ∈ pyDumps v, b < 128
  | .jnull, b, hb => by
    simp only [pyDumps, List.mem_cons, List.not_mem_nil, or_false] at hb
    rcases hb with rfl | rfl | rfl | rfl <;> omega
  | .jbool true, b, hb => by
    simp only [pyDumps, List.mem_cons, List.not_mem_nil, or_false] at hb
    rcases hb with rfl | rfl | rfl | rfl <;> omega
  | .jbool false, b, hb => by
    simp only [pyDumps, List.mem_cons, List.not_mem_nil, or_false] at hb
    rcases hb with rfl | rfl | rfl | rfl | rfl <;> omega
  | .jnum n, b, hb => numBytes_lt (by simpa [pyDumps] using hb)
  | .jstr s, b, hb => strBytes_lt (by simpa [pyDumps] using hb)
  | .jarr elems, b, hb => by
    unfold pyDumps at hb
    rcases List.mem_append.1 hb with hb | hb
    · rcases List.mem_append.1 hb with hb | hb
      · simp at hb; omega
      · exact pyDumpsArr_lt elems b hb
    · simp at hb; omega
  | .jobj items, b, hb => by
    unfold pyDumps at hb
    rcases List.mem_append.1 hb with hb | hb
    · rcases List.mem_append.1 hb with hb | hb
      · simp at hb; omega
      · exact pyDumpsObj_lt items b hb
    · simp at hb; omega

/-- Helper: serialized array contents are ASCII bytes. -/
theorem pyDumpsArr_lt : ∀ (l : List JValue), ∀ b ∈ pyDumpsArr l, b < 128
  | [], b, hb => by cases hb
  | [v], b, hb => pyDumps_lt v b (by simpa [pyDumpsArr] using hb)
  | v :: w :: rest, b, hb => by
    unfold pyDumpsArr at hb
    rcases List.mem_append.1 hb with hb | hb
    · rcases List.mem_append.1 hb with hb | hb
      · exact pyDumps_lt v b hb
      · simp at hb; rcases hb with rfl | rfl <;> omega
    · exact pyDumpsArr_lt (w :: rest) b hb

/-- Helper: serialized object contents are ASCII bytes. -/
theorem pyDumpsObj_lt : ∀ (l : List (List ℕ × JValue)), ∀ b ∈ pyDumpsObj l, b < 128
  | [], b, hb => by cases hb
  | [(k, v)], b, hb => by
    unfold pyDumpsObj at hb
    rcases List.mem_append.1 hb with hb | hb
    · rcases List.mem_append.1 hb with hb | hb
      · exact strBytes_lt hb
      · simp at hb; rcases hb with rfl | rfl <;> omega
    · exact pyDumps_lt v b hb
  | (k, v) :: e :: rest, b, hb => by
    unfold pyDumpsObj at hb
    rcases List.mem_append.1 hb with hb | hb
    · rcases List.mem_append.1 hb with hb | hb
      · rcases List.mem_append.1 hb with hb | hb
        · rcases List.mem_append.1 hb with hb | hb
          · exact strBytes_lt hb
          · simp at hb; rcases hb with rfl | rfl <;> omega
        · exact pyDumps_lt v b hb
      · simp at hb; rcases hb with rfl | rfl <;> omega
    · exact pyDumpsObj_lt (e :: rest) b hb
end

/-- Helper: the connector (which contains `0xff`) is never a prefix of
ASCII bytes. -/
theorem conn_not_prefix_of_ascii {l : List ℕ} (hl : ∀ b ∈ l, b < 128) :
    BODY_CONNECTOR.isPrefixOf l = false := by
  cases hp : BODY_CONNECTOR.isPrefixOf l
  · rfl
  · exfalso
    have hsub : (255 : ℕ) ∈ l :=
      (List.isPrefixOf_iff_prefix.1 hp).subset (by decide)
    have := hl _ hsub
    omega

/-- Helper: splitting ASCII bytes on the connector returns them whole. -/
theorem splitOnConn_ascii (l : List ℕ) (hl : ∀ b ∈ l, b < 128) :
    splitOnConn l = [l] := by
  induction l with
  | nil => rw [splitOnConn.eq_def]
  | cons x rest ih =>
    unfold splitOnConn
    rw [conn_not_prefix_of_ascii hl]
    simp only [Bool.false_eq_true, if_false]
    rw [ih (fun b hb => hl b (List.mem_cons_of_mem x hb))]

/-- Helper: no occurrence of the connector starts inside the ASCII half:
the byte at offset 2 of any occurrence must be `0xff`, and offset 2 from any
position strictly inside `x :: a'` lands in the ASCII part or on a `0x0a` of
the connector itself. -/
theorem conn_not_prefix_boundary (x : ℕ) (a' c : List ℕ)
    (ha : ∀ b ∈ x :: a', b < 128) :
    BODY_CONNECTOR.isPrefixOf (x :: (a' ++ (BODY_CONNECTOR ++ c))) = false := by
  cases hp : BODY_CONNECTOR.isPrefixOf (x :: (a' ++ (BODY_CONNECTOR ++ c)))
  · rfl
  · exfalso
    obtain ⟨t, ht⟩ := List.isPrefixOf_iff_prefix.1 hp
    have h2 : (BODY_CONNECTOR ++ t)[2]? = some 255 := rfl
    rw [ht] at h2
    cases a' with
    | nil => simp [BODY_CONNECTOR] at h2
    | cons y a'' =>
      cases a'' with
      | nil => simp [BODY_CONNECTOR] at h2
      | cons z a''' =>
        have hz : z < 128 := ha z (by simp)
        simp at h2
        omega

/-- Helper: splitting `a ++ connector ++ c` with ASCII `a` severs exactly at
the connector. -/
theorem splitOnConn_boundary (a c : List ℕ) (ha : ∀ b ∈ a, b < 128) :
    splitOnConn (a ++ (BODY_CONNECTOR ++ c)) = a :: splitOnConn c := by
  induction a with
  | nil =>
    simp only [List.nil_append]
    have hpre : BODY_CONNECTOR.isPrefixOf (BODY_CONNECTOR ++ c) = true :=
      isPrefixOf_append_self _ _
    have hshape : BODY_CONNECTOR ++ c =
        10 :: ([10, 255, 255, 255, 255, 10, 10] ++ c) := rfl
    rw [hshape] at hpre
    conv_lhs => rw [hshape, splitOnConn.eq_def]
    dsimp only
    rw [hpre]
    simp [BODY_CONNECTOR]
  | cons x a' ih =>
    have hnp := conn_not_prefix_boundary x a' c ha
    rw [List.cons_append]
    conv_lhs => rw [splitOnConn.eq_def]
    dsimp only
    rw [hnp]
    simp only [Bool.false_eq_true, if_false]
    rw [ih (fun b hb => ha b (List.mem_cons_of_mem x hb))]

/-- Helper: `bytes.strip(b'[] ')` on `[ inner ] ` recovers `inner` exactly
when `inner` is empty or brace-delimited. -/
theorem dropWhile_cons_true {α} (p : α → Bool) (x : α) (l : List α)
    (h : p x = true) : (x :: l).dropWhile p = l.dropWhile p := by
  simp [List.dropWhile_cons, h]

/-- Helper: `dropWhile` stops on a failing head. -/
theorem dropWhile_cons_false {α} (p : α → Bool) (x : α) (l : List α)
    (h : p x = false) : (x :: l).dropWhile p = x :: l := by
  simp [List.dropWhile_cons, h]

/-- Helper: `bytes.strip(b'[] ')` on `[ inner ] ` recovers `inner` exactly
when `inner` is empty or brace-delimited. -/
theorem pyStripBytes_wrapped (inner : List ℕ)
    (h : inner = [] ∨ (inner.head? = some 123 ∧ inner.getLast? = some 125)) :
    pyStripBytes (91 :: (inner ++ [93, 32])) [91, 93, 32] = inner := by
  unfold pyStripBytes
  rcases h with rfl | ⟨hh, hl⟩
  · decide
  · obtain ⟨t, rfl⟩ : ∃ t, inner = 123 :: t := by
      cases hin : inner with
      | nil => rw [hin] at hh; cases hh
      | cons u t =>
        rw [hin] at hh
        simp at hh
        exact ⟨t, by rw [hh]⟩
    obtain ⟨s, hs⟩ : ∃ s, (123 :: t).reverse = 125 :: s := by
      have hrh : (123 :: t).reverse.head? = some 125 := by
        rw [List.head?_reverse]
        exact hl
      cases hrev : (123 :: t).reverse with
      | nil => rw [hrev] at hrh; cases hrh
      | cons u s =>
        rw [hrev] at hrh
        simp at hrh
        exact ⟨s, by rw [hrh]⟩
    rw [dropWhile_cons_true _ _ _ (by decide)]
    rw [List.cons_append, dropWhile_cons_false _ _ _ (by decide),
      ← List.cons_append]
    rw [List.reverse_append]
    rw [show ([93, 32] : List ℕ).reverse = [32, 93] from rfl]
    rw [show ([32, 93] : List ℕ) ++ (123 :: t).reverse =
      32 :: 93 :: (123 :: t).reverse from rfl]
    rw [dropWhile_cons_true _ _ _ (by decide),
      dropWhile_cons_true _ _ _ (by decide)]
    rw [hs, dropWhile_cons_false _ _ _ (by decide), ← hs, List.reverse_reverse]

/-- Helper: the serialized array of objects starts with `\x7b` (byte 123). -/
theorem pyDumpsArr_objs_head (e : List (List ℕ × JValue))
    (es : List (List (List ℕ × JValue))) :
    ∃ m, pyDumpsArr ((e :: es).map .jobj) = 123 :: m := by
  cases es with
  | nil => exact ⟨pyDumpsObj e ++ [125], by simp [pyDumpsArr, pyDumps]⟩
  | cons e2 es' =>
    refine ⟨(pyDumpsObj e ++ [125]) ++ [44, 32] ++
      pyDumpsArr ((e2 :: es').map .jobj), ?_⟩
    simp [pyDumpsArr, pyDumps]

/-- Helper: the serialized array of objects ends with `\x7d` (byte 125). -/
theorem pyDumpsArr_objs_last :
    ∀ (ents : List (List (List ℕ × JValue))), ents ≠ [] →
      (pyDumpsArr (ents.map .jobj)).getLast? = some 125 := by
  intro ents
  induction ents with
  | nil => intro h; exact absurd rfl h
  | cons e es ih =>
    intro _
    cases es with
    | nil =>
      show (pyDumps (.jobj e)).getLast? = some 125
      unfold pyDumps
      rw [show ([123] ++ pyDumpsObj e ++ [125]) = ([123] ++ pyDumpsObj e) ++ [125] by
        simp]
      exact List.getLast?_concat _
    | cons e2 es' =>
      show (pyDumps (.jobj e) ++ [44, 32] ++
        pyDumpsArr ((e2 :: es').map .jobj)).getLast? = some 125
      rw [List.getLast?_append, ih (by simp)]
      rfl

/-- Claim C5: the `return-as-2-json-objects=yes` round trip.  For every list
of entity objects and every failures list, splitting the peer's framed body
on the 8-byte connector yields exactly the two halves (the connector's
`0xff` bytes cannot occur in `json.dumps` ASCII output), and re-joining the
entities half by the aggregator's merge (strip `b'[] '`, join, re-bracket)
reproduces byte-for-byte the `json.dumps` of the entities array — which is
exactly the `entities` component of the peer's default JSON body
(`listLocalDefaultBody`), so the entity set is identical. -/
theorem c5_two_json_roundtrip (entities : List (List (List ℕ × JValue)))
    (failures : List JValue) :
    splitOnConn (twoJsonBody (.jarr (entities.map .jobj)) (.jarr failures)) =
      [pyDumps (.jarr (entities.map .jobj)) ++ [32],
       32 :: pyDumps (.jarr failures)] ∧
    mergeEntities [pyDumps (.jarr (entities.map .jobj)) ++ [32]] =
      pyDumps (.jarr (entities.map .jobj)) := by
  constructor
  · unfold twoJsonBody
    have hassoc : pyDumps (.jarr (entities.map .jobj)) ++ [32] ++ BODY_CONNECTOR ++
        [32] ++ pyDumps (.jarr failures) =
        (pyDumps (.jarr (entities.map .jobj)) ++ [32]) ++
          (BODY_CONNECTOR ++ (32 :: pyDumps (.jarr failures))) := by
      simp
    rw [hassoc]
    have hA : ∀ b ∈ pyDumps (.jarr (entities.map .jobj)) ++ [32], b < 128 := by
      intro b hb
      rcases List.mem_append.1 hb with hb | hb
      · exact pyDumps_lt _ b hb
      · simp at hb; omega
    rw [splitOnConn_boundary _ _ hA]
    rw [splitOnConn_ascii]
    intro b hb
    rcases List.mem_cons.1 hb with rfl | hb
    · omega
    · exact pyDumps_lt _ b hb
  · unfold mergeEntities joinBytes
    have hshape : pyDumps (.jarr (entities.map .jobj)) ++ [32] =
        91 :: (pyDumpsArr (entities.map .jobj) ++ [93, 32]) := by
      unfold pyDumps
      simp
    rw [List.map_singleton, hshape]
    rw [pyStripBytes_wrapped]
    · unfold pyDumps
      rfl
    · cases entities with
      | nil => left; rfl
      | cons e es =>
        right
        obtain ⟨m, hm⟩ := pyDumpsArr_objs_head e es
        exact ⟨by rw [hm]; rfl, pyDumpsArr_objs_last (e :: es) (by simp)⟩

/-- Helper: `process_node_result` only appends to the shared failures
list. -/
theorem processNodeResult_fail_sub (o : PeerResult)
    (acc : List (List ℕ) × List Failure) :
    ∀ f ∈ acc.2, f ∈ (processNodeResult o acc).2 := by
  intro f hf
  unfold processNodeResult
  cases o with
  | ok ej fl =>
    dsimp only
    split
    · exact List.mem_append_left _ hf
    · exact hf
  | hermesError h m => exact List.mem_append_left _ hf

/-- Helper: the fan-out fold never drops collected failures. -/
theorem foldl_failures_mono (peer : JValue → PeerResult) :
    ∀ (locs : List JValue) (acc : List (List ℕ) × List Failure) (f : Failure),
      f ∈ acc.2 →
      f ∈ (locs.foldl (fun acc loc => processNodeResult (peer loc) acc) acc).2 := by
  intro locs
  induction locs with
  | nil => intro acc f hf; exact hf
  | cons loc rest ih =>
    intro acc f hf
    rw [List.foldl_cons]
    exact ih _ f (processNodeResult_fail_sub _ _ f hf)

/-- Helper: every HermesError peer contributes its `\x7bhost, message\x7d`
entry to the fan-out failures. -/
theorem foldl_failures_mem (peer : JValue → PeerResult) :
    ∀ (locs : List JValue) (acc : List (List ℕ) × List Failure)
      (loc : JValue) (h m : String),
      loc ∈ locs → peer loc = .hermesError h m →
      Failure.mk h m ∈
        (locs.foldl (fun acc loc => processNodeResult (peer loc) acc) acc).2 := by
  intro locs
  induction locs with
  | nil => intro acc loc h m hmem; cases hmem
  | cons l rest ih =>
    intro acc loc h m hmem hpe
    rcases List.mem_cons.1 hmem with rfl | hmem
    · rw [List.foldl_cons]
      refine foldl_failures_mono peer rest _ _ ?_
      unfold processNodeResult
      rw [hpe]
      simp
    · rw [List.foldl_cons]
      exact ih _ loc h m hmem hpe

/-- Counterexample to claim C7: a present body `\x7b"locations": 42\x7d` lacks a
`locations` array, so the claim demands a 400 response — but the code only
catches the subscript errors (ValueError, TypeError, KeyError around line
103); the non-iterable value 42 raises TypeError later, inside the fan-out
comprehension, which escapes the handler uncaught (no 400, no 200). -/
theorem c7_nonarray_locations_uncaught :
    listCluster (.json (.jobj [(strToCodes "locations", .jnum 42)])) []
      (fun _ => .ok [] []) = .uncaught PyErr.typeError ∧
    ∀ reason, ClusterResponse.uncaught PyErr.typeError ≠
      ClusterResponse.badRequest reason :=
  ⟨by with_unfolding_all rfl, fun _ h => ClusterResponse.noConfusion h⟩

/-- Claim C7 (amended): the cluster endpoint returns 400 with a reason
exactly when a body is present and is either undecodable JSON or a decoded
value on which the `['locations']` subscript raises (a non-dict, or a dict
without the key) — the value under the key is never checked to be an array:
a non-iterable value makes a TypeError escape the handler.  When the
subscript succeeds and the value is iterable (and when the body is absent
and the default peer list is used), the response is 200 and every peer whose
task fails with `HermesError\x7bhost, message\x7d` contributes a structured
`\x7bhost, message\x7d` entry to the response's failures (peer failures are
never fatal). -/
theorem c7_cluster_dispatch :
    (∀ (body : ReqBody) (dips : List String) (peer : JValue → PeerResult),
      (∃ r, listCluster body dips peer = .badRequest r) ↔
      (body = .malformed ∨ ∃ v e, body = .json v ∧
        pySubscript v (strToCodes "locations") = .error e)) ∧
    (∀ (v locVal : JValue) (locs : List JValue) (dips : List String)
       (peer : JValue → PeerResult),
      pySubscript v (strToCodes "locations") = .ok locVal →
      pyIter locVal = .ok locs →
      ∃ ents fails, listCluster (.json v) dips peer = .okResp ents fails ∧
        ∀ loc ∈ locs, ∀ h m, peer loc = .hermesError h m →
          Failure.mk h m ∈ fails) ∧
    (∀ (dips : List String) (peer : JValue → PeerResult),
      ∃ ents fails, listCluster .absent dips peer = .okResp ents fails ∧
        ∀ ip ∈ dips, ∀ h m,
          peer (.jstr (strToCodes ip)) = .hermesError h m →
          Failure.mk h m ∈ fails) := by
  refine ⟨?_, ?_, ?_⟩
  · intro body dips peer
    constructor
    · rintro ⟨r, hr⟩
      cases body with
      | malformed => exact Or.inl rfl
      | absent =>
        unfold listCluster at hr
        dsimp only at hr
        exact ClusterResponse.noConfusion hr
      | json v =>
        unfold listCluster at hr
        dsimp only at hr
        cases hsub : pySubscript v (strToCodes "locations") with
        | error e => exact Or.inr ⟨v, e, rfl, hsub⟩
        | ok locVal =>
          rw [hsub] at hr
          dsimp only at hr
          cases hiter : pyIter locVal with
          | error e =>
            rw [hiter] at hr
            exact ClusterResponse.noConfusion hr
          | ok locs =>
            rw [hiter] at hr
            exact ClusterResponse.noConfusion hr
    · rintro (rfl | ⟨v, e, rfl, hsub⟩)
      · exact ⟨PyErr.valueError, rfl⟩
      · refine ⟨e, ?_⟩
        unfold listCluster
        dsimp only
        rw [hsub]
  · intro v locVal locs dips peer hsub hiter
    refine ⟨(listResource locs peer).1, (listResource locs peer).2, ?_, ?_⟩
    · unfold listCluster
      dsimp only
      rw [hsub]
      dsimp only
      rw [hiter]
    · intro loc hloc h m hpe
      unfold listResource
      dsimp only
      exact foldl_failures_mem peer locs ([], []) loc h m hloc hpe
  · intro dips peer
    refine ⟨(listResource (dips.map (fun ip => JValue.jstr (strToCodes ip))) peer).1,
      (listResource (dips.map (fun ip => JValue.jstr (strToCodes ip))) peer).2,
      rfl, ?_⟩
    intro ip hip h m hpe
    unfold listResource
    dsimp only
    refine foldl_failures_mem peer _ ([], []) (.jstr (strToCodes ip)) h m ?_ hpe
    exact List.mem_map.2 ⟨ip, hip, rfl⟩

/-- Witness for C7 (amended) at a concrete cluster call: a body listing one
location and a peer oracle that always fails with HermesError. -/
theorem c7_cluster_dispatch_witness :
    (∃ r, listCluster ReqBody.malformed [] (fun _ => PeerResult.ok [] []) =
      .badRequest r) ∧
    (∃ ents fails,
      listCluster (.json (.jobj [(strToCodes "locations",
          .jarr [.jstr (strToCodes "10.0.2.16")])])) []
        (fun _ => .hermesError "10.0.2.16" "connection refused") =
        .okResp ents fails ∧
      Failure.mk "10.0.2.16" "connection refused" ∈ fails) := by
  constructor
  · exact (c7_cluster_dispatch.1 ReqBody.malformed [] _).2 (Or.inl rfl)
  · obtain ⟨ents, fails, hok, hmem⟩ :=
      c7_cluster_dispatch.2.1
        (.jobj [(strToCodes "locations", .jarr [.jstr (strToCodes "10.0.2.16")])])
        (.jarr [.jstr (strToCodes "10.0.2.16")])
        [.jstr (strToCodes "10.0.2.16")] []
        (fun _ => .hermesError "10.0.2.16" "connection refused")
        (by with_unfolding_all rfl) rfl
    exact ⟨ents, fails, hok,
      hmem (.jstr (strToCodes "10.0.2.16")) (by simp) _ _ rfl⟩

end AppScale
